import Mathlib

/-!
Verification development for the Artella "Get Dependencies" plugin
(artella-plugins-getdependencies, file
src/artella/plugins/getdependencies/getdependencies.py).

The Python code is shallowly embedded below.  External collaborators
(the Artella drive client, the scene parser, the os.path functions and
the local filesystem) are modelled as components of explicit
environment records; the control flow of the plugin functions is
translated statement by statement.

Conventions:
* A Python dict mapping keys to lists (`found_files`,
  `remote_path_files`) is modelled as an insertion-ordered association
  list `GMap` with unique keys; `gsetdefault`, `gappend`,
  `gremoveFirst` mirror `dict.setdefault`, `list.append` and
  `list.pop(list.index(v))`.
* Falsy Python strings (None or "") are modelled with `Option String`
  and `strFalsy`.
* The local filesystem is a pair of a static predicate `isFile`
  together with the list `fs` of paths made present by downloads
  during the traversal; `downloadOk p` tells whether
  `artella.DccPlugin().download_file(p)` makes `p` present.
* The recursion of the nested Python closure `_get_dependencies` is
  bounded by an explicit fuel parameter (Python bounds it by the
  interpreter recursion limit); all theorems hold for every fuel value
  large enough to cover the traversal they speak about.
-/

namespace ArtellaGetDeps

/-- Insertion-ordered association map from keys to lists of strings,
modelling a Python dict of lists (unique keys, insertion order kept). -/
abbrev GMap (α : Type) := List (α × List String)

/-- Lookup of a key, returning the empty list when the key is absent
(the code only reads keys it has created). -/
def glookup {α : Type} [DecidableEq α] : GMap α → α → List String
  | [], _ => []
  | p :: rest, k => if p.1 = k then p.2 else glookup rest k

/-- Whether the map has the given key (Python `k in d`). -/
def ghasKey {α : Type} [DecidableEq α] : GMap α → α → Bool
  | [], _ => false
  | p :: rest, k => if p.1 = k then true else ghasKey rest k

/-- Python `d.setdefault(k, list())`: insert `(k, [])` at the end when
`k` is absent, leave the map unchanged otherwise. -/
def gsetdefault {α : Type} [DecidableEq α] (g : GMap α) (k : α) : GMap α :=
  if ghasKey g k then g else g ++ [(k, [])]

/-- Python `d[k].append(v)`: append `v` to the list stored at the (in a
dict unique, here first) entry with key `k`. -/
def gappend {α : Type} [DecidableEq α] : GMap α → α → String → GMap α
  | [], _, _ => []
  | p :: rest, k, v =>
    if p.1 = k then (p.1, p.2 ++ [v]) :: rest else p :: gappend rest k v

/-- Python `l.pop(l.index(v))`: remove the first occurrence of `v`. -/
def removeFirst : List String → String → List String
  | [], _ => []
  | x :: xs, v => if x = v then xs else x :: removeFirst xs v

/-- Python `d[k].pop(d[k].index(v))` on the entry with key `k`. -/
def gremoveFirst {α : Type} [DecidableEq α] : GMap α → α → String → GMap α
  | [], _, _ => []
  | p :: rest, k, v =>
    if p.1 = k then (p.1, removeFirst p.2 v) :: rest else p :: gremoveFirst rest k v

/-- The dependency graph built by `_get_dependencies`: Python dict from
a parent local path (`None` for the sentinel root key) to the list of
recorded children. -/
abbrev Graph := GMap (Option String)

/-- Environment of the dependency walker: the collaborators used by the
nested closure `_get_dependencies` (getdependencies.py lines 42-91).
`cleanPath` is `artella.core.utils.clean_path`, `translate` is
`artella_drive_client.translate_path`, `isFile` is `os.path.isfile` at
traversal start, `downloadOk p` says whether
`artella.DccPlugin().download_file(p)` leaves `p` present on disk,
`isLatest` is `artella_drive_client.file_is_latest_version`, `parse` is
`artella.Parser().parse`, `extOf` is `os.path.splitext(...)[-1]`,
`extensions` is `dcc.extensions()`, `isAbs` is `os.path.isabs`, and
`relToAbs` is `artella_drive_client.relative_path_to_absolute_path`. -/
structure Env where
  cleanPath : String → String
  translate : String → String
  isFile : String → Bool
  downloadOk : String → Bool
  isLatest : String → Bool
  parse : String → List String
  extOf : String → String
  extensions : List String
  isAbs : String → Bool
  relToAbs : String → String

/-- Resolution of one raw reference, as performed for each entry of the
recursive loop (lines 83-84) followed by the head of
`_get_dependencies` (lines 55-56): make the reference absolute when it
is relative, clean it, and translate it through the drive client. -/
def resolveRef (env : Env) (r : String) : String :=
  env.translate (env.cleanPath (if env.isAbs r then r else env.relToAbs r))

/-- The `for dep_file_path in deps_file_paths:` loop of the recursive
branch (lines 82-85): resolve relative references to absolute ones and
recurse, threading the graph and the set of downloaded files.  The
recursive call is abstracted as `f` so that the walker below can pass
itself at a smaller fuel. -/
def depsLoop (f : String → Option String → Graph → List String → Graph × List String × Bool)
    (env : Env) (lp : String) : List String → Graph → List String → Graph × List String
  | [], g, fs => (g, fs)
  | r :: rs, g, fs =>
    let r1 := if env.isAbs r then r else env.relToAbs r
    let t := f r1 (some lp) g fs
    depsLoop f env lp rs t.1 t.2.1

/-- The `for dep_file_path in deps_file_paths:` loop of the
non-recursive branch (lines 87-89): `setdefault` the parsed file as a
key and append each raw reference unconditionally. -/
def appendRaw (lp : String) : Graph → List String → Graph
  | g, [] => g
  | g, r :: rs => appendRaw lp (gappend (gsetdefault g (some lp)) (some lp) r) rs

/-- Lines 74-91 of `_get_dependencies`, reached once the parsed file is
locally present: the extension gate, the parse, and the recursive or
non-recursive loop over the parsed references.  The recursive call is
abstracted as `f`. -/
def getDepsBody (f : String → Option String → Graph → List String → Graph × List String × Bool)
    (env : Env) (recursive : Bool) (lp : String) (g : Graph) (fs2 : List String) :
    Graph × List String × Bool :=
  if env.extOf lp ∈ env.extensions then
    if recursive then
      let t := depsLoop f env lp (env.parse lp) g fs2
      (t.1, t.2, true)
    else
      (appendRaw lp g (env.parse lp), fs2, true)
  else (g, fs2, false)

/-- The nested closure `_get_dependencies` (lines 42-91).  Returns the
graph, the list of files made present by downloads so far, and whether
the Python function returned `found_files` (`true`) or `None`
(`false`).  At fuel 0 the state is returned unchanged (Python has no
such case; every theorem supplies enough fuel). -/
def getDepsAux (env : Env) (recursive : Bool) :
    Nat → String → Option String → Graph → List String → Graph × List String × Bool
  | 0, _, _, g, fs => (g, fs, false)
  | fuel + 1, path, parent, g, fs =>
    let lp := env.translate (env.cleanPath path)
    let g1 := gsetdefault g parent
    let g2 := if lp ∈ glookup g1 parent then g1 else gappend g1 parent lp
    if env.isFile lp || decide (lp ∈ fs) then
      getDepsBody (getDepsAux env recursive fuel) env recursive lp g2 fs
    else if env.downloadOk lp then
      getDepsBody (getDepsAux env recursive fuel) env recursive lp g2 (lp :: fs)
    else (gremoveFirst g2 parent lp, fs, false)

/-- Falsy test for an optional Python string (`None` or `''`). -/
def strFalsy : Option String → Bool
  | none => true
  | some s => s == ""

/-- Environment of the top-level entry points: the walker environment
plus the plugin/loading state used by `get_dependencies` (lines
93-110).  `isLoaded` is `self.is_loaded()`, `clientOk` is the
conjunction of `get_client()` being truthy and `client.check(update=True)`,
`sceneName` is `dcc.scene_name()` (`none` when falsy). -/
structure TopEnv extends Env where
  isLoaded : Bool
  clientOk : Bool
  sceneName : Option String

/-- The entry point `get_dependencies` (lines 30-144) restricted to its
returned value `res`.  The download, path-update and post-hook calls
(lines 120-142) never modify `res`, so they do not appear in the
returned graph. -/
def get_dependencies (env : TopEnv) (filePath : Option String)
    (recursive : Bool) (fuel : Nat) : Graph :=
  if !env.isLoaded then []
  else if !env.clientOk then []
  else
    let fp := if strFalsy filePath then env.sceneName else filePath
    if strFalsy fp then []
    else
      let f := env.cleanPath (fp.getD "")
      let t := getDepsAux env.toEnv recursive fuel f none [] []
      if t.2.2 then (if t.1.isEmpty then [] else t.1) else []

/-! ## get_non_available_dependencies (lines 146-256) -/

/-- Python `str.split('_')` on the character list of a string. -/
def splitChar (c : Char) : List Char → List (List Char)
  | [] => [[]]
  | x :: xs =>
    match splitChar c xs with
    | [] => [[]]
    | h :: t => if x = c then [] :: h :: t else (x :: h) :: t

/-- Python `s.split('_')`. -/
def splitU (s : String) : List String :=
  (splitChar '_' s.data).map (fun l => String.mk l)

/-- The zip-style positional comparison of lines 204-209: walk the
underscore segments of the reference name and of a candidate file name
in lockstep; the placeholder segment matches anything, any other pair
must be equal, and the shorter side truncates the comparison. -/
def udimZipMatch : List String → List String → Bool
  | [], _ => true
  | _ :: _, [] => true
  | d :: ds, f :: fs =>
    if d = "<UDIM>" then udimZipMatch ds fs
    else if d = f then udimZipMatch ds fs
    else false

/-- Environment of `get_non_available_dependencies`: `clientOk` is
`get_client()` being truthy (no `check` call on this path), `parse` is
`artella.Parser().parse(..., show_dialogs=False)`, `isUdim` is
`dcc.is_udim_path`, `dirname`/`basename`/`splitextRoot`/`splitextExt`/
`joinPath` are the `os.path` helpers, `statusDir d` models
`artella_drive_client.status(d, include_remote=True)`: `none` for a
falsy result and `some entries` for the dict `directory_info[0]`, each
entry carrying `remote_info.raw.type == 'file'` and `remote_info.name`
(the empty string standing for a falsy name), and `translateDcc` is
`artella.DccPlugin().translate_path`. -/
structure NEnv where
  clientOk : Bool
  sceneName : Option String
  isFile : String → Bool
  isDir : String → Bool
  parse : String → List String
  isUdim : String → Bool
  dirname : String → String
  basename : String → String
  splitextRoot : String → String
  splitextExt : String → String
  statusDir : String → Option (List (Bool × String))
  translateDcc : String → String
  joinPath : String → String → String

/-- The `for handle, data in directory_info.items():` loop of lines
190-196: `setdefault` the directory key for every entry and append the
entry name when it is a file with a truthy name. -/
def addListing (dir : String) : GMap String → List (Bool × String) → GMap String
  | rpf, [] => rpf
  | rpf, e :: es =>
    let r1 := gsetdefault rpf dir
    let r2 := if e.1 ∧ e.2 ≠ "" then gappend r1 dir e.2 else r1
    addListing dir r2 es

/-- The inner `for file_name in file_names:` loop of lines 201-219:
keep a candidate whose name zip-matches the reference parts, whose
translated path is truthy and not a local file, is not a directory and
has a file extension. -/
def udimCollect (env : NEnv) (depParts : List String) (dirPath : String) :
    List String → List String → List String
  | [], acc => acc
  | n :: ns, acc =>
    let acc2 :=
      if udimZipMatch depParts (splitU n) then
        let tp := env.translateDcc (env.joinPath dirPath n)
        if tp ≠ "" ∧ ¬ env.isFile tp then
          if env.isDir tp then acc
          else if env.splitextExt tp = "" then acc
          else acc ++ [tp]
        else acc
      else acc
    udimCollect env depParts dirPath ns acc2

/-- Lines 184-196: populate the `remote_path_files` cache for the
reference's directory when it is not cached yet — `remote_path_files[d]
= list()` on a falsy status, the entry loop otherwise. -/
def fetchListing (env : NEnv) (rpf : GMap String) (dir : String) : GMap String :=
  if ghasKey rpf dir then rpf
  else
    match env.statusDir dir with
    | none => rpf ++ [(dir, [])]
    | some entries => addListing dir rpf entries

/-- One iteration of the `for dep_file_path in deps_file_paths:` loop
(lines 179-228), threading the `remote_path_files` cache and the
accumulated `non_available_deps` list. -/
def nonAvailStep (env : NEnv) (st : GMap String × List String) (dep : String) :
    GMap String × List String :=
  let rpf := st.1
  let acc := st.2
  if env.isUdim dep then
    let dir := env.dirname dep
    let depParts := splitU (env.splitextRoot (env.basename dep))
    let rpf2 := fetchListing env rpf dir
    if ghasKey rpf2 dir then
      let acc2 := rpf2.foldl
        (fun a p => if p.2.isEmpty then a else udimCollect env depParts p.1 p.2 a) acc
      (rpf2, acc2)
    else (rpf2, acc)
  else
    let tp := env.translateDcc dep
    if tp ≠ "" ∧ ¬ env.isFile tp then
      if env.isDir tp then (rpf, acc)
      else if env.splitextExt tp = "" then (rpf, acc)
      else (rpf, acc ++ [tp])
    else (rpf, acc)

/-- The entry point `get_non_available_dependencies` (lines 146-256)
restricted to its returned value `non_available_deps`; the
confirm-then-fetch step of lines 230-254 never writes to that list
(see `get_non_available_dependencies_full` below for the whole body). -/
def get_non_available_dependencies (env : NEnv) (filePath : Option String) :
    List String :=
  if !env.clientOk then []
  else
    let fp? := if strFalsy filePath then env.sceneName else filePath
    if strFalsy fp? then []
    else
      let fp := fp?.getD ""
      if !env.isFile fp then []
      else
        let refs := env.parse fp
        if refs.isEmpty then []
        else (refs.foldl (fun st dep => nonAvailStep env st dep)
          (([] : GMap String), ([] : List String))).2

/-- The whole body of `get_non_available_dependencies` (lines 146-256)
including the confirm-then-fetch step: `choice` models the dialog of
`_show_get_deps_dialog` returning `(do_sync, do_recursive)` (both true
when no dialogs are shown), `tenv` models the world seen by the
`get_dependencies` calls of lines 240-246 (its filesystem may differ
from `env`'s because downloads happened), and the second component is
`deps_retrieved`.  The function returns `non_available_deps`. -/
def get_non_available_dependencies_full (env : NEnv) (tenv : TopEnv)
    (choice : List String → Bool × Bool) (fuel : Nat) (filePath : Option String) :
    List String × List Graph :=
  if !env.clientOk then ([], [])
  else
    let fp? := if strFalsy filePath then env.sceneName else filePath
    if strFalsy fp? then ([], [])
    else
      let fp := fp?.getD ""
      if !env.isFile fp then ([], [])
      else
        let refs := env.parse fp
        if refs.isEmpty then ([], [])
        else
          let nad := (refs.foldl (fun st dep => nonAvailStep env st dep)
            (([] : GMap String), ([] : List String))).2
          let retrieved :=
            if nad.isEmpty then []
            else
              let c := choice nad
              if c.1 then
                if c.2 then
                  nad.map (fun d =>
                    let g := get_dependencies tenv (some d) true fuel
                    if g.isEmpty then [(some d, [])] else g)
                else nad.map (fun d => ([(some d, [])] : Graph))
              else []
          (nad, retrieved)

/-- Truthy file entries of a remote directory listing, in listing
order: the names appended by lines 190-196. -/
def validNames (entries : List (Bool × String)) : List String :=
  entries.filterMap (fun e => if e.1 ∧ e.2 ≠ "" then some e.2 else none)

/-- The keep-or-drop decision of lines 210-219 for one matching
candidate name, as an `Option`. -/
def candKeep (env : NEnv) (dirPath n : String) : Option String :=
  let tp := env.translateDcc (env.joinPath dirPath n)
  if tp ≠ "" ∧ ¬ env.isFile tp ∧ ¬ env.isDir tp ∧ env.splitextExt tp ≠ ""
  then some tp else none

/-- Candidates one cached directory contributes for one UDIM
reference: its file names filtered by the zip match of the
extension-stripped reference segments against the full candidate
names, then translated and kept per `candKeep`, in listing order. -/
def udimCandidatesIn (env : NEnv) (depParts : List String) (dirPath : String)
    (names : List String) : List String :=
  (names.filter (fun n => udimZipMatch depParts (splitU n))).filterMap (candKeep env dirPath)

/-- Closed form of the candidates produced for one UDIM reference when
the cache holds only the reference's own directory: the truthy file
names of the remote listing of that directory, filtered by the zip
match of the extension-stripped reference name against the full
candidate names, then translated and kept per `candKeep`, in listing
order. -/
def udimCandidates (env : NEnv) (dep : String) : List String :=
  let dir := env.dirname dep
  let depParts := splitU (env.splitextRoot (env.basename dep))
  let names :=
    match env.statusDir dir with
    | none => []
    | some entries => validNames entries
  (names.filter (fun n => udimZipMatch depParts (splitU n))).filterMap
    (candKeep env dir)

/-! ## _download_files (lines 292-337) -/

/-- One sample of `artella_drive_client.get_progress()` (line 317). -/
structure ProgressSample where
  percent : Nat
  filesDone : Nat
  filesTotal : Nat
  bytesDone : Nat
  bytesTotal : Nat

/-- Environment of the polling loop of `_download_files`:
`isCancelled i` is `dcc_progress_bar.is_cancelled()` at the i-th loop
iteration, `progress i` the i-th `get_progress()` sample. -/
structure PollEnv where
  isCancelled : Nat → Bool
  progress : Nat → ProgressSample

/-- Outcome of the polling loop: the final `valid_download` flag, the
number of `get_progress` polls issued, and whether
`pause_downloads` was called. -/
structure PollResult where
  validDownload : Bool
  polls : Nat
  paused : Bool
deriving DecidableEq, Repr

/-- The `while True:` polling loop of lines 312-323, iteration index
`i`, bounded by fuel (`none` when the fuel runs out before the loop
exits; Python would keep polling).  The cancellation check runs only
when `showDialogs` is true, mirroring
`if show_dialogs and dcc_progress_bar.is_cancelled():`. -/
def pollLoop (env : PollEnv) (showDialogs : Bool) : Nat → Nat → Option PollResult
  | 0, _ => none
  | k + 1, i =>
    if showDialogs && env.isCancelled i then some ⟨false, i, true⟩
    else
      let s := env.progress i
      if 100 ≤ s.percent ∨ s.bytesDone = s.bytesTotal then some ⟨true, i + 1, false⟩
      else pollLoop env showDialogs k (i + 1)

/-- The retry loop of lines 332-334: `while missing_file and
total_checks < 5: time.sleep(1.0); total_checks += 1`.  The flag
`missing` is never recomputed inside the loop.  `fuel` only bounds the
recursion; 6 is always enough since `t` grows towards the cap 5. -/
def reconLoopFuel (missing : Bool) : Nat → Nat → Nat
  | 0, t => t
  | k + 1, t => if missing ∧ t < 5 then reconLoopFuel missing k (t + 1) else t

/-- The post-loop reconciliation of lines 325-334: when the download
was not cancelled, scan `files_to_download` once for a missing file
(`existsAt 0` is `os.path.exists` at that moment; `existsAt t` is what
the filesystem would answer `t` seconds later, after the `t`-th
`time.sleep(1.0)`), then run the retry loop.  Returns the final
`total_checks` and the final value of `missing_file`. -/
def downloadReconcile (existsAt : Nat → String → Bool) (files : List String)
    (validDownload : Bool) : Nat × Bool :=
  if validDownload then
    let missing := files.any (fun f => !existsAt 0 f)
    (reconLoopFuel missing 6 0, missing)
  else (0, false)

/-- Modelled from the spec: the reconciliation loop as section 4.3 of
the specification describes it, re-examining the filesystem on every
attempt — "re-check existence of every requested path; if any are
still missing, retry the existence check after a short delay, up to a
small fixed number of attempts".  Attempt `t` queries `existsAt t`;
the loop stops as soon as nothing is missing or the attempt cap 5 is
reached.  Used only to exhibit the divergence of the code from the
claim. -/
def specRecheckLoop (existsAt : Nat → String → Bool) (files : List String) :
    Nat → Nat → Nat × Bool
  | 0, t => (t, files.any (fun f => !existsAt t f))
  | k + 1, t =>
    let missing := files.any (fun f => !existsAt t f)
    if missing ∧ t < 5 then specRecheckLoop existsAt files k (t + 1)
    else (t, missing)

/-! ## Concrete environments used by counterexamples and witnesses -/

/-- A world with a single present scene file "a.ma" that parses to no
references; paths translate to themselves. -/
def envNoRefs : TopEnv where
  cleanPath := id
  translate := id
  isFile := fun p => p == "a.ma"
  downloadOk := fun _ => false
  isLatest := fun _ => true
  parse := fun _ => []
  extOf := fun _ => ".ma"
  extensions := [".ma"]
  isAbs := fun _ => true
  relToAbs := id
  isLoaded := true
  clientOk := true
  sceneName := none

/-- A world with the chain a.ma -> b.ma -> c.ma, all present locally. -/
def envChain : TopEnv where
  cleanPath := id
  translate := id
  isFile := fun p => p == "a.ma" || p == "b.ma" || p == "c.ma"
  downloadOk := fun _ => false
  isLatest := fun _ => true
  parse := fun p => if p == "a.ma" then ["b.ma"] else if p == "b.ma" then ["c.ma"] else []
  extOf := fun _ => ".ma"
  extensions := [".ma"]
  isAbs := fun _ => true
  relToAbs := id
  isLoaded := true
  clientOk := true
  sceneName := none

/-- A world where the root scene lists the same reference twice. -/
def envDup : TopEnv where
  cleanPath := id
  translate := id
  isFile := fun p => p == "a.ma"
  downloadOk := fun _ => false
  isLatest := fun _ => true
  parse := fun p => if p == "a.ma" then ["b.ma", "b.ma"] else []
  extOf := fun _ => ".ma"
  extensions := [".ma"]
  isAbs := fun _ => true
  relToAbs := id
  isLoaded := true
  clientOk := true
  sceneName := none

/-- A world where the parent scene p.ma references bad.ma (absent, and
its download fails) and good.ma (present, no own references). -/
def envFail : TopEnv where
  cleanPath := id
  translate := id
  isFile := fun p => p == "p.ma" || p == "good.ma"
  downloadOk := fun _ => false
  isLatest := fun _ => true
  parse := fun p => if p == "p.ma" then ["bad.ma", "good.ma"] else []
  extOf := fun _ => ".ma"
  extensions := [".ma"]
  isAbs := fun _ => true
  relToAbs := id
  isLoaded := true
  clientOk := true
  sceneName := none

/-- A walker environment whose translation rules prefix "local/"; the
file x.ma is present and parses to one reference. -/
def envResolveA : Env where
  cleanPath := id
  translate := fun s => "local/" ++ s
  isFile := fun _ => true
  downloadOk := fun _ => true
  isLatest := fun _ => true
  parse := fun _ => ["dep.ma"]
  extOf := fun _ => ".ma"
  extensions := [".ma"]
  isAbs := fun _ => true
  relToAbs := id

/-- Same translation rules as `envResolveA` but a different filesystem,
download behaviour and parser. -/
def envResolveB : Env where
  cleanPath := id
  translate := fun s => "local/" ++ s
  isFile := fun _ => false
  downloadOk := fun _ => false
  isLatest := fun _ => false
  parse := fun _ => []
  extOf := fun _ => ".txt"
  extensions := [".ma"]
  isAbs := fun _ => true
  relToAbs := id

/-- `envNoRefs` with the plugin not loaded. -/
def envUnloaded : TopEnv :=
  { envNoRefs with isLoaded := false }

/-- UDIM world of the specification's own example: the reference
T/tile_<UDIM>_color.png has its tile placeholder in the middle of the
name, and the remote listing of T holds tile_1001_color.png and
tile_1002_color.png, neither present locally. -/
def envUdimMid : NEnv where
  clientOk := true
  sceneName := none
  isFile := fun p => p == "s.ma"
  isDir := fun _ => false
  parse := fun p => if p == "s.ma" then ["T/tile_<UDIM>_color.png"] else []
  isUdim := fun p => p == "T/tile_<UDIM>_color.png"
  dirname := fun _ => "T"
  basename := fun p => if p == "T/tile_<UDIM>_color.png" then "tile_<UDIM>_color.png" else p
  splitextRoot := fun p => if p == "tile_<UDIM>_color.png" then "tile_<UDIM>_color" else p
  splitextExt := fun _ => ".png"
  statusDir := fun d =>
    if d == "T" then some [(true, "tile_1001_color.png"), (true, "tile_1002_color.png")]
    else none
  translateDcc := id
  joinPath := fun a b => a ++ "/" ++ b

/-- UDIM world with the tile placeholder in final position:
T/tile_color_<UDIM>.png against a listing of tile_color_1001.png and
tile_color_1002.png. -/
def envUdimLast : NEnv where
  clientOk := true
  sceneName := none
  isFile := fun p => p == "s.ma"
  isDir := fun _ => false
  parse := fun p => if p == "s.ma" then ["T/tile_color_<UDIM>.png"] else []
  isUdim := fun p => p == "T/tile_color_<UDIM>.png"
  dirname := fun _ => "T"
  basename := fun p => if p == "T/tile_color_<UDIM>.png" then "tile_color_<UDIM>.png" else p
  splitextRoot := fun p => if p == "tile_color_<UDIM>.png" then "tile_color_<UDIM>" else p
  splitextExt := fun _ => ".png"
  statusDir := fun d =>
    if d == "T" then some [(true, "tile_color_1001.png"), (true, "tile_color_1002.png")]
    else none
  translateDcc := id
  joinPath := fun a b => a ++ "/" ++ b

/-- UDIM world with two references in two directories: the scene
references A/t_<UDIM>.png and B/t_<UDIM>.png, directory A lists
t_1001.png and t_9999.jpg, directory B lists t_2001.png, nothing
present locally except the scene. -/
def envUdimTwo : NEnv where
  clientOk := true
  sceneName := none
  isFile := fun p => p == "s.ma"
  isDir := fun _ => false
  parse := fun p => if p == "s.ma" then ["A/t_<UDIM>.png", "B/t_<UDIM>.png"] else []
  isUdim := fun p => p == "A/t_<UDIM>.png" || p == "B/t_<UDIM>.png"
  dirname := fun p =>
    if p == "A/t_<UDIM>.png" then "A" else if p == "B/t_<UDIM>.png" then "B" else ""
  basename := fun p =>
    if p == "A/t_<UDIM>.png" then "t_<UDIM>.png"
    else if p == "B/t_<UDIM>.png" then "t_<UDIM>.png" else p
  splitextRoot := fun p => if p == "t_<UDIM>.png" then "t_<UDIM>" else p
  splitextExt := fun p => if p == "A/t_9999.jpg" then ".jpg" else ".png"
  statusDir := fun d =>
    if d == "A" then some [(true, "t_1001.png"), (true, "t_9999.jpg")]
    else if d == "B" then some [(true, "t_2001.png")]
    else none
  translateDcc := id
  joinPath := fun a b => a ++ "/" ++ b

/-- A polling world whose cancel flag is raised from the very first
iteration while the transfer completes at the third poll. -/
def envPollCancel : PollEnv where
  isCancelled := fun _ => true
  progress := fun i => ⟨if 2 ≤ i then 100 else 50, 0, 2, if 2 ≤ i then 10 else 5, 10⟩

/-- A filesystem trace where the requested file is absent when the
reconciliation starts and present from one second later on. -/
def existsLate : Nat → String → Bool := fun t _ => decide (1 ≤ t)

/-! ## Helper lemmas about the map operations -/

theorem glookup_append_nil {α : Type} [DecidableEq α] (g : GMap α) (k κ : α) :
    glookup (g ++ [(k, [])]) κ = glookup g κ := by
  induction g with
  | nil => simp [glookup]
  | cons p rest ih =>
    obtain ⟨pk, pl⟩ := p
    simp only [List.cons_append, glookup]
    split <;> simp [ih]

theorem glookup_gsetdefault {α : Type} [DecidableEq α] (g : GMap α) (k κ : α) :
    glookup (gsetdefault g k) κ = glookup g κ := by
  unfold gsetdefault
  split
  · rfl
  · exact glookup_append_nil g k κ

theorem ghasKey_append_single {α : Type} [DecidableEq α] (g : GMap α) (k κ : α)
    (l : List String) :
    ghasKey (g ++ [(k, l)]) κ = (ghasKey g κ || decide (κ = k)) := by
  induction g with
  | nil => simp [ghasKey, eq_comm]
  | cons p rest ih =>
    obtain ⟨pk, pl⟩ := p
    simp only [List.cons_append, ghasKey]
    split <;> simp [ih]

theorem ghasKey_gsetdefault {α : Type} [DecidableEq α] (g : GMap α) (k κ : α) :
    ghasKey (gsetdefault g k) κ = (ghasKey g κ || decide (κ = k)) := by
  unfold gsetdefault
  split
  · rename_i h
    by_cases hκ : κ = k
    · subst hκ; simp [h]
    · simp [hκ]
  · exact ghasKey_append_single g k κ []

theorem glookup_gappend_ne {α : Type} [DecidableEq α] (g : GMap α) (k κ : α) (v : String)
    (h : κ ≠ k) :
    glookup (gappend g k v) κ = glookup g κ := by
  induction g with
  | nil => rfl
  | cons p rest ih =>
    obtain ⟨pk, pl⟩ := p
    by_cases hp : pk = k
    · subst hp
      simp [gappend, glookup, Ne.symm h]
    · simp [gappend, glookup, hp, ih]

theorem glookup_gappend_self {α : Type} [DecidableEq α] (g : GMap α) (k : α) (v : String) :
    glookup (gappend g k v) k = if ghasKey g k then glookup g k ++ [v] else [] := by
  induction g with
  | nil => rfl
  | cons p rest ih =>
    obtain ⟨pk, pl⟩ := p
    by_cases hp : pk = k
    · subst hp
      simp [gappend, glookup, ghasKey]
    · simp [gappend, glookup, ghasKey, hp, ih]

theorem removeFirst_append_self (l : List String) (v : String) (h : v ∉ l) :
    removeFirst (l ++ [v]) v = l := by
  induction l with
  | nil => simp [removeFirst]
  | cons x xs ih =>
    have hx : x ≠ v := fun hxv => h (by simp [hxv])
    have hxs : v ∉ xs := fun hm => h (List.mem_cons_of_mem x hm)
    simp [removeFirst, hx, ih hxs]

theorem removeFirst_sublist (l : List String) (v : String) :
    List.Sublist (removeFirst l v) l := by
  induction l with
  | nil => simp [removeFirst]
  | cons x xs ih =>
    simp only [removeFirst]
    split
    · exact List.sublist_cons_self x xs
    · exact List.Sublist.cons₂ x ih

theorem gremoveFirst_gappend {α : Type} [DecidableEq α] (g : GMap α) (k : α) (v : String)
    (h : v ∉ glookup g k) :
    gremoveFirst (gappend g k v) k v = g := by
  induction g with
  | nil => rfl
  | cons p rest ih =>
    obtain ⟨pk, pl⟩ := p
    by_cases hp : pk = k
    · subst hp
      have hv : v ∉ pl := by simpa [glookup] using h
      simp [gappend, gremoveFirst, removeFirst_append_self pl v hv]
    · have h2 : v ∉ glookup rest k := by simpa [glookup, hp] using h
      simp [gappend, gremoveFirst, hp, ih h2]

theorem glookup_gremoveFirst {α : Type} [DecidableEq α] (g : GMap α) (k κ : α) (v : String) :
    glookup (gremoveFirst g k v) κ =
      if κ = k then removeFirst (glookup g k) v else glookup g κ := by
  induction g with
  | nil => simp [glookup, gremoveFirst, removeFirst]
  | cons p rest ih =>
    obtain ⟨pk, pl⟩ := p
    by_cases hp : pk = k
    · subst hp
      by_cases hκ : κ = pk
      · subst hκ; simp [gremoveFirst, glookup]
      · simp [gremoveFirst, glookup, hκ, Ne.symm hκ]
    · by_cases hκ : κ = pk
      · subst hκ
        simp [gremoveFirst, glookup, hp, Ne.symm hp, fun hh : κ = k => hp hh]
      · simp [gremoveFirst, glookup, hp, Ne.symm hκ, ih]

/-! ## The failed-fetch branch of the walker -/

/-- Net effect of `_get_dependencies` on a file that is absent locally
and whose download fails (lines 63-68): the only change to the state
is that the parent key now exists; the appended child is popped again,
nothing is recursed into, and no download is recorded. -/
theorem getDepsAux_fail (env : Env) (recursive : Bool) (fuel : Nat) (path : String)
    (parent : Option String) (g : Graph) (fs : List String)
    (hfile : env.isFile (env.translate (env.cleanPath path)) = false)
    (hfs : env.translate (env.cleanPath path) ∉ fs)
    (hdl : env.downloadOk (env.translate (env.cleanPath path)) = false)
    (hg : env.translate (env.cleanPath path) ∉ glookup g parent) :
    getDepsAux env recursive (fuel + 1) path parent g fs
      = (gsetdefault g parent, fs, false) := by
  have hg1 : env.translate (env.cleanPath path) ∉ glookup (gsetdefault g parent) parent := by
    rw [glookup_gsetdefault]; exact hg
  simp only [getDepsAux, glookup_gsetdefault]
  simp [hg, hfile, hfs, hdl, gremoveFirst_gappend _ _ _ hg1]

/-- C1: a dependency path that is absent locally and whose download
fails is removed from its parent's recorded child list, gets no key of
its own in the graph, is not recursed into (graph, download record and
returned flag all say so), and the loop over the remaining sibling
references continues from the otherwise unchanged state. -/
theorem c1_failed_download_amputates (env : Env) (recursive : Bool) (fuel : Nat)
    (r plp : String) (rest : List String) (g : Graph) (fs : List String)
    (hfile : env.isFile (resolveRef env r) = false)
    (hfs : resolveRef env r ∉ fs)
    (hdl : env.downloadOk (resolveRef env r) = false)
    (hg : resolveRef env r ∉ glookup g (some plp))
    (hne : resolveRef env r ≠ plp) :
    getDepsAux env recursive (fuel + 1) (if env.isAbs r then r else env.relToAbs r)
        (some plp) g fs = (gsetdefault g (some plp), fs, false)
    ∧ depsLoop (getDepsAux env recursive (fuel + 1)) env plp (r :: rest) g fs
        = depsLoop (getDepsAux env recursive (fuel + 1)) env plp rest
            (gsetdefault g (some plp)) fs
    ∧ resolveRef env r ∉ glookup (gsetdefault g (some plp)) (some plp)
    ∧ (ghasKey g (some (resolveRef env r)) = false →
        ghasKey (gsetdefault g (some plp)) (some (resolveRef env r)) = false) := by
  have hmain := getDepsAux_fail env recursive fuel
    (if env.isAbs r then r else env.relToAbs r) (some plp) g fs hfile hfs hdl hg
  refine ⟨hmain, ?_, ?_, ?_⟩
  · simp only [depsLoop, hmain]
  · rw [glookup_gsetdefault]; exact hg
  · intro h
    rw [ghasKey_gsetdefault]
    simp [h, hne]

/-- C1 witness: in `envFail`, the parent scene p.ma references bad.ma
(absent, download fails) and good.ma; the failed child is amputated
while the sibling loop continues. -/
theorem c1_failed_download_amputates_witness :
    (envFail.toEnv.isFile (resolveRef envFail.toEnv "bad.ma") = false
      ∧ resolveRef envFail.toEnv "bad.ma" ∉ ([] : List String)
      ∧ envFail.toEnv.downloadOk (resolveRef envFail.toEnv "bad.ma") = false
      ∧ resolveRef envFail.toEnv "bad.ma"
          ∉ glookup [(none, ["p.ma"])] (some "p.ma")
      ∧ resolveRef envFail.toEnv "bad.ma" ≠ "p.ma")
    ∧ (getDepsAux envFail.toEnv true 3
          (if envFail.toEnv.isAbs "bad.ma" then "bad.ma"
            else envFail.toEnv.relToAbs "bad.ma")
          (some "p.ma") [(none, ["p.ma"])] []
        = (gsetdefault [(none, ["p.ma"])] (some "p.ma"), [], false)
      ∧ depsLoop (getDepsAux envFail.toEnv true 3) envFail.toEnv "p.ma"
          ["bad.ma", "good.ma"] [(none, ["p.ma"])] []
        = depsLoop (getDepsAux envFail.toEnv true 3) envFail.toEnv "p.ma"
            ["good.ma"] (gsetdefault [(none, ["p.ma"])] (some "p.ma")) []
      ∧ resolveRef envFail.toEnv "bad.ma"
          ∉ glookup (gsetdefault [(none, ["p.ma"])] (some "p.ma")) (some "p.ma")
      ∧ (ghasKey [(none, ["p.ma"])] (some (resolveRef envFail.toEnv "bad.ma")) = false →
          ghasKey (gsetdefault [(none, ["p.ma"])] (some "p.ma"))
            (some (resolveRef envFail.toEnv "bad.ma")) = false)) :=
  ⟨⟨by decide, by decide, by decide, by decide, by decide⟩,
    c1_failed_download_amputates envFail.toEnv true 2 "bad.ma" "p.ma" ["good.ma"]
      [(none, ["p.ma"])] [] (by decide) (by decide) (by decide) (by decide) (by decide)⟩

/-! ## Zero-reference roots and the non-recursive mode -/

theorem gsetdefault_append_single {α : Type} [DecidableEq α] (g : GMap α) (k : α)
    (l : List String) :
    gsetdefault (g ++ [(k, l)]) k = g ++ [(k, l)] := by
  unfold gsetdefault
  rw [ghasKey_append_single]
  simp

theorem gappend_append_single {α : Type} [DecidableEq α] (g : GMap α) (k : α)
    (l : List String) (v : String) (h : ghasKey g k = false) :
    gappend (g ++ [(k, l)]) k v = g ++ [(k, l ++ [v])] := by
  induction g with
  | nil => simp [gappend]
  | cons p rest ih =>
    obtain ⟨pk, pl⟩ := p
    have hp : pk ≠ k := by
      intro hh
      simp [ghasKey, hh] at h
    have hrest : ghasKey rest k = false := by
      simpa [ghasKey, hp] using h
    simp [gappend, hp, ih hrest]

theorem appendRaw_acc (lp : String) (g : Graph) (acc refs : List String)
    (h : ghasKey g (some lp) = false) :
    appendRaw lp (g ++ [(some lp, acc)]) refs = g ++ [(some lp, acc ++ refs)] := by
  induction refs generalizing acc with
  | nil => simp [appendRaw]
  | cons r rs ih =>
    simp only [appendRaw, gsetdefault_append_single, gappend_append_single g _ acc r h]
    rw [ih (acc ++ [r])]
    simp

theorem appendRaw_fresh (lp : String) (g : Graph) (refs : List String)
    (h : ghasKey g (some lp) = false) (hne : refs ≠ []) :
    appendRaw lp g refs = g ++ [(some lp, refs)] := by
  cases refs with
  | nil => exact absurd rfl hne
  | cons r rs =>
    have hsd : gsetdefault g (some lp) = g ++ [(some lp, [])] := by
      unfold gsetdefault; rw [h]; simp
    simp only [appendRaw, hsd, gappend_append_single g _ [] r h, List.nil_append]
    rw [appendRaw_acc lp g [r] rs h]
    simp

/-- C3 counterexample: in `envNoRefs` the root a.ma is present, has a
recognized extension and zero references, yet the recursive walk
returns the graph with the single sentinel key `none` mapped to
`["a.ma"]` — the root's resolved path is not a key at all, so the
claimed shape (root key mapped to an empty sequence) is wrong. -/
theorem c3_zero_refs_cex :
    get_dependencies envNoRefs (some "a.ma") true 5 = [(none, ["a.ma"])]
    ∧ ghasKey (get_dependencies envNoRefs (some "a.ma") true 5) (some "a.ma") = false
    ∧ glookup (get_dependencies envNoRefs (some "a.ma") true 5) none ≠ [] := by
  refine ⟨by decide, by decide, by decide⟩

/-- C3 amended: for a locally present root of recognized scene
extension whose parse yields zero references, the recursive walk
returns the graph whose only key is the sentinel root key `none`,
mapped to the one-element sequence holding the root's resolved path;
the root's resolved path itself is not a key. -/
theorem c3_zero_refs_sentinel (env : TopEnv) (f lp : String) (fuel : Nat)
    (hload : env.isLoaded = true) (hclient : env.clientOk = true) (hf : f ≠ "")
    (hlp : lp = env.translate (env.cleanPath (env.cleanPath f)))
    (hfile : env.isFile lp = true)
    (hext : env.extOf lp ∈ env.extensions)
    (hparse : env.parse lp = []) :
    get_dependencies env (some f) true (fuel + 1) = [(none, [lp])] := by
  subst hlp
  have hsf : strFalsy (some f) = false := by simp [strFalsy, hf]
  simp [get_dependencies, getDepsAux, getDepsBody, depsLoop, gsetdefault, ghasKey,
    gappend, glookup, hsf, hload, hclient, hfile, hext, hparse]

/-- C3 witness: the amended statement applied in `envNoRefs`. -/
theorem c3_zero_refs_sentinel_witness :
    (envNoRefs.isLoaded = true ∧ envNoRefs.clientOk = true ∧ "a.ma" ≠ ""
      ∧ envNoRefs.isFile "a.ma" = true
      ∧ envNoRefs.extOf "a.ma" ∈ envNoRefs.extensions
      ∧ envNoRefs.parse "a.ma" = [])
    ∧ get_dependencies envNoRefs (some "a.ma") true 4 = [(none, ["a.ma"])] :=
  ⟨⟨rfl, rfl, by decide, by decide, by decide, rfl⟩,
    c3_zero_refs_sentinel envNoRefs "a.ma" "a.ma" 3 rfl rfl (by decide) rfl (by decide)
      (by decide) rfl⟩

/-- C2 counterexample: in `envChain` with recursive=False, the root
a.ma references b.ma and b.ma references c.ma, yet c.ma appears
nowhere in the returned graph: it is not surfaced under the root's own
list (and b.ma is no nested key), contradicting the claimed merge of
each direct dependency's own references under the root key. -/
theorem c2_nonrecursive_no_merge_cex :
    envChain.parse "b.ma" = ["c.ma"]
    ∧ get_dependencies envChain (some "a.ma") false 5
        = [(none, ["a.ma"]), (some "a.ma", ["b.ma"])]
    ∧ "c.ma" ∉ glookup (get_dependencies envChain (some "a.ma") false 5) (some "a.ma")
    ∧ ghasKey (get_dependencies envChain (some "a.ma") false 5) (some "b.ma") = false := by
  refine ⟨by decide, by decide, by decide, by decide⟩

/-- C2 amended: with recursive=False only the root is parsed; the
returned graph holds the sentinel key `none` with the root's resolved
path and one more key, the root's resolved path, listing the root's
raw direct references verbatim.  No direct dependency is fetched,
re-parsed or expanded, so the references of a direct dependency (such
as C) appear nowhere — neither under a nested key nor merged into the
root's own list. -/
theorem c2_nonrecursive_flat (env : TopEnv) (f lp : String) (fuel : Nat)
    (hload : env.isLoaded = true) (hclient : env.clientOk = true) (hf : f ≠ "")
    (hlp : lp = env.translate (env.cleanPath (env.cleanPath f)))
    (hfile : env.isFile lp = true)
    (hext : env.extOf lp ∈ env.extensions)
    (hne : env.parse lp ≠ []) :
    get_dependencies env (some f) false (fuel + 1)
      = [(none, [lp]), (some lp, env.parse lp)]
    ∧ ∀ c : String, c ∉ env.parse lp → c ≠ lp →
        ghasKey (get_dependencies env (some f) false (fuel + 1)) (some c) = false
        ∧ c ∉ glookup (get_dependencies env (some f) false (fuel + 1)) (some lp) := by
  subst hlp
  have hsf : strFalsy (some f) = false := by simp [strFalsy, hf]
  have harfresh : ghasKey [(none,
      [env.translate (env.cleanPath (env.cleanPath f))])]
      (some (env.translate (env.cleanPath (env.cleanPath f)))) = false := by
    simp [ghasKey]
  have hmain : get_dependencies env (some f) false (fuel + 1)
      = [(none, [env.translate (env.cleanPath (env.cleanPath f))]),
          (some (env.translate (env.cleanPath (env.cleanPath f))),
            env.parse (env.translate (env.cleanPath (env.cleanPath f))))] := by
    simp [get_dependencies, getDepsAux, getDepsBody, gsetdefault, ghasKey,
      gappend, glookup, hsf, hload, hclient, hfile, hext,
      appendRaw_fresh _ _ _ harfresh hne, hne]
  refine ⟨hmain, ?_⟩
  intro c hc hcl
  rw [hmain]
  constructor
  · simp [ghasKey, Ne.symm hcl]
  · simp [glookup, hc]

/-- C2 witness: the amended statement applied in `envChain`. -/
theorem c2_nonrecursive_flat_witness :
    (envChain.isLoaded = true ∧ envChain.clientOk = true ∧ "a.ma" ≠ ""
      ∧ envChain.isFile "a.ma" = true
      ∧ envChain.extOf "a.ma" ∈ envChain.extensions
      ∧ envChain.parse "a.ma" ≠ [])
    ∧ get_dependencies envChain (some "a.ma") false 4
        = [(none, ["a.ma"]), (some "a.ma", envChain.parse "a.ma")]
    ∧ (ghasKey (get_dependencies envChain (some "a.ma") false 4) (some "c.ma") = false
        ∧ "c.ma" ∉ glookup (get_dependencies envChain (some "a.ma") false 4)
            (some "a.ma")) :=
  ⟨⟨rfl, rfl, by decide, by decide, by decide, by decide⟩,
    (c2_nonrecursive_flat envChain "a.ma" "a.ma" 3 rfl rfl (by decide) rfl (by decide)
      (by decide) (by decide)).1,
    (c2_nonrecursive_flat envChain "a.ma" "a.ma" 3 rfl rfl (by decide) rfl (by decide)
      (by decide) (by decide)).2 "c.ma" (by decide) (by decide)⟩

/-! ## Duplicate suppression -/

theorem nodup_gsetdefault {α : Type} [DecidableEq α] (g : GMap α) (k : α)
    (h : ∀ κ, (glookup g κ).Nodup) : ∀ κ, (glookup (gsetdefault g k) κ).Nodup := by
  intro κ; rw [glookup_gsetdefault]; exact h κ

theorem nodup_gappend {α : Type} [DecidableEq α] (g : GMap α) (k : α) (v : String)
    (h : ∀ κ, (glookup g κ).Nodup) (hv : v ∉ glookup g k) :
    ∀ κ, (glookup (gappend g k v) κ).Nodup := by
  intro κ
  by_cases hκ : κ = k
  · subst hκ
    rw [glookup_gappend_self]
    split
    · rw [List.nodup_append]
      exact ⟨h κ, List.nodup_singleton v,
        fun a ha hav => hv ((List.mem_singleton.mp hav) ▸ ha)⟩
    · simp
  · rw [glookup_gappend_ne g k κ v hκ]; exact h κ

theorem nodup_gremoveFirst {α : Type} [DecidableEq α] (g : GMap α) (k : α) (v : String)
    (h : ∀ κ, (glookup g κ).Nodup) :
    ∀ κ, (glookup (gremoveFirst g k v) κ).Nodup := by
  intro κ
  rw [glookup_gremoveFirst]
  split
  · exact List.Nodup.sublist (removeFirst_sublist _ _) (h k)
  · exact h κ

theorem depsLoop_nodup (env : Env)
    (f : String → Option String → Graph → List String → Graph × List String × Bool)
    (hf : ∀ p par g fs, (∀ κ, (glookup g κ).Nodup) →
      ∀ κ, (glookup (f p par g fs).1 κ).Nodup) :
    ∀ (refs : List String) (lp : String) (g : Graph) (fs : List String),
      (∀ κ, (glookup g κ).Nodup) →
      ∀ κ, (glookup (depsLoop f env lp refs g fs).1 κ).Nodup := by
  intro refs
  induction refs with
  | nil => intro lp g fs h κ; simpa [depsLoop] using h κ
  | cons r rs ih =>
    intro lp g fs h κ
    simp only [depsLoop]
    exact ih lp _ _ (hf _ _ _ _ h) κ

theorem getDepsBody_nodup (env : Env)
    (f : String → Option String → Graph → List String → Graph × List String × Bool)
    (hf : ∀ p par g fs, (∀ κ, (glookup g κ).Nodup) →
      ∀ κ, (glookup (f p par g fs).1 κ).Nodup)
    (lp : String) (g : Graph) (fs2 : List String)
    (h : ∀ κ, (glookup g κ).Nodup) :
    ∀ κ, (glookup (getDepsBody f env true lp g fs2).1 κ).Nodup := by
  intro κ
  unfold getDepsBody
  split
  · exact depsLoop_nodup env f hf (env.parse lp) lp g fs2 h κ
  · exact h κ

theorem getDepsAux_nodup (env : Env) :
    ∀ (fuel : Nat) (path : String) (parent : Option String) (g : Graph)
      (fs : List String),
      (∀ κ, (glookup g κ).Nodup) →
      ∀ κ, (glookup (getDepsAux env true fuel path parent g fs).1 κ).Nodup := by
  intro fuel
  induction fuel with
  | zero => intro path parent g fs h κ; simpa [getDepsAux] using h κ
  | succ n ih =>
    intro path parent g fs h κ
    have h1 : ∀ κ, (glookup (gsetdefault g parent) κ).Nodup := nodup_gsetdefault g parent h
    simp only [getDepsAux]
    have h2 : ∀ κ, (glookup
        (if env.translate (env.cleanPath path) ∈ glookup (gsetdefault g parent) parent
          then gsetdefault g parent
          else gappend (gsetdefault g parent) parent
            (env.translate (env.cleanPath path))) κ).Nodup := by
      split
      · exact h1
      · rename_i hmem
        exact nodup_gappend _ _ _ h1 hmem
    split
    · exact getDepsBody_nodup env _ (fun p par g2 fs2 hg2 => ih p par g2 fs2 hg2)
        _ _ _ h2 κ
    · split
      · exact getDepsBody_nodup env _ (fun p par g2 fs2 hg2 => ih p par g2 fs2 hg2)
          _ _ _ h2 κ
      · exact nodup_gremoveFirst _ _ _ h2 κ

/-- C9 counterexample: in non-recursive mode the transitive raw
references are appended without a membership check (lines 87-89), so a
scene that lists the same reference twice yields a parent list with a
duplicate. -/
theorem c9_nonrecursive_duplicates_cex :
    get_dependencies envDup (some "a.ma") false 5
      = [(none, ["a.ma"]), (some "a.ma", ["b.ma", "b.ma"])]
    ∧ ¬ (glookup (get_dependencies envDup (some "a.ma") false 5) (some "a.ma")).Nodup := by
  refine ⟨by decide, by decide⟩

/-- C9 amended: in recursive mode every child list of the returned
graph is duplicate-free (the append at lines 60-61 is guarded by a
membership test and the pop of line 67 only removes); in non-recursive
mode the appends of lines 87-89 are unconditional and duplicates can
survive. -/
theorem c9_recursive_nodup (env : TopEnv) (filePath : Option String) (fuel : Nat)
    (k : Option String) :
    (glookup (get_dependencies env filePath true fuel) k).Nodup := by
  have hstart : ∀ κ, (glookup ([] : Graph) κ).Nodup := by intro κ; simp [glookup]
  unfold get_dependencies
  dsimp only
  split_ifs <;>
    first
      | simp [glookup]
      | exact getDepsAux_nodup env.toEnv fuel _ none [] [] hstart k

/-! ## Whole-operation preconditions -/

/-- C7 counterexample: a third whole-operation precondition exists
beyond the two claimed ones.  With the plugin not loaded
(`self.is_loaded()` false, line 95) the operation aborts with an empty
result even though the client is fine and a file path was given; the
same world with the plugin loaded returns a non-empty graph. -/
theorem c7_unloaded_plugin_aborts_cex :
    get_dependencies envUnloaded (some "a.ma") true 5 = []
    ∧ envUnloaded.clientOk = true
    ∧ strFalsy (some "a.ma") = false
    ∧ get_dependencies envNoRefs (some "a.ma") true 5 = [(none, ["a.ma"])] := by
  refine ⟨by decide, by decide, by decide, by decide⟩

/-- C7 amended: `get_dependencies` aborts before any traversal,
download or graph-building work and returns an empty result in exactly
three whole-operation precondition failures: the plugin is not loaded,
the remote content client cannot be reached or fails its check, and no
file path is given while no scene is open.  (The statement quantifies
over every environment, so the result is independent of the parser,
filesystem and download behaviour in those cases.) -/
theorem c7_three_preconditions (env : TopEnv) (filePath : Option String)
    (recursive : Bool) (fuel : Nat)
    (h : env.isLoaded = false ∨ env.clientOk = false
      ∨ (strFalsy filePath = true ∧ strFalsy env.sceneName = true)) :
    get_dependencies env filePath recursive fuel = [] := by
  unfold get_dependencies
  rcases h with h | h | ⟨h1, h2⟩
  · simp [h]
  · cases hl : env.isLoaded <;> simp [hl, h]
  · cases hl : env.isLoaded <;> cases hc : env.clientOk <;> simp [hl, hc, h1, h2]

/-- C7 witness: the amended statement applied to the unloaded-plugin
world. -/
theorem c7_three_preconditions_witness :
    envUnloaded.isLoaded = false
    ∧ get_dependencies envUnloaded (some "a.ma") true 5 = [] :=
  ⟨rfl, c7_three_preconditions envUnloaded (some "a.ma") true 5 (Or.inl rfl)⟩

/-! ## Purity of reference resolution -/

/-- C8: resolving a reference is a pure function of the reference and
the translation rules (`clean_path`, `os.path.isabs`,
`relative_path_to_absolute_path`, `translate_path`): two environments
that agree on those four components resolve every reference
identically, whatever their filesystem, parser, version or download
behaviour; in particular resolving twice yields the same ResolvedPath. -/
theorem c8_resolution_pure (e1 e2 : Env) (r : String)
    (ht : e1.translate = e2.translate) (hc : e1.cleanPath = e2.cleanPath)
    (ha : e1.isAbs = e2.isAbs) (hr : e1.relToAbs = e2.relToAbs) :
    resolveRef e1 r = resolveRef e2 r ∧ resolveRef e1 r = resolveRef e1 r := by
  constructor
  · simp [resolveRef, ht, hc, ha, hr]
  · rfl

/-- C8 witness: `envResolveA` and `envResolveB` share translation
rules but disagree on filesystem and parser; resolution agrees. -/
theorem c8_resolution_pure_witness :
    (envResolveA.translate = envResolveB.translate
      ∧ envResolveA.cleanPath = envResolveB.cleanPath
      ∧ envResolveA.isAbs = envResolveB.isAbs
      ∧ envResolveA.relToAbs = envResolveB.relToAbs
      ∧ envResolveA.isFile "x.ma" = true ∧ envResolveB.isFile "x.ma" = false)
    ∧ resolveRef envResolveA "dep.ma" = resolveRef envResolveB "dep.ma" :=
  ⟨⟨rfl, rfl, rfl, rfl, rfl, rfl⟩,
    (c8_resolution_pure envResolveA envResolveB "dep.ma" rfl rfl rfl rfl).1⟩

/-! ## Fetch coordinator: reconciliation and cancellation -/

/-- C5: the retry loop of lines 332-334 computes `missing_file` once,
before the loop, and never re-examines the filesystem: on a trace
where the requested file appears one second after the post-loop check,
the code still runs all 5 sleep iterations and ends with
`missing_file` true, while the loop the specification describes
(re-checking each attempt) stops after one retry having found the
file. -/
theorem c5_reconcile_never_rechecks :
    downloadReconcile existsLate ["a"] true = (5, true)
    ∧ existsLate 1 "a" = true
    ∧ specRecheckLoop existsLate ["a"] 6 0 = (1, false) := by
  refine ⟨by decide, by decide, by decide⟩

theorem pollLoop_no_dialog_cancel_blind (e1 e2 : PollEnv)
    (h : e1.progress = e2.progress) :
    ∀ (k i : Nat), pollLoop e1 false k i = pollLoop e2 false k i := by
  intro k
  induction k with
  | zero => intro i; rfl
  | succ n ih =>
    intro i
    simp only [pollLoop, Bool.false_and, Bool.false_eq_true, if_false, h]
    split
    · rfl
    · exact ih (i + 1)

/-- C6 counterexample: the cancellation signal is checked only when
dialogs are shown (`if show_dialogs and dcc_progress_bar.is_cancelled()`,
line 313).  In `envPollCancel` the cancel flag is raised from the very
first iteration, yet with `show_dialogs` false the loop keeps polling
(three polls) and never pauses, contradicting "checked once per poll
iteration regardless of configuration". -/
theorem c6_cancel_unchecked_without_dialogs_cex :
    envPollCancel.isCancelled 0 = true
    ∧ pollLoop envPollCancel false 10 0 = some ⟨true, 3, false⟩ := by
  refine ⟨by decide, by decide⟩

/-- C6 amended: when dialogs are shown, the cancellation signal is
checked at the top of every iteration; the iteration that observes it
pauses the downloads, reports an invalid (partial) download and ends
the loop without issuing any further progress poll (the poll count
stays at the number of previous iterations).  When dialogs are not
shown the signal is never consulted: the loop's outcome depends only
on the progress samples. -/
theorem c6_cancel_pause_and_stop (env : PollEnv) (k i : Nat)
    (h : env.isCancelled i = true) :
    pollLoop env true (k + 1) i = some ⟨false, i, true⟩
    ∧ ∀ e2 : PollEnv, e2.progress = env.progress →
        pollLoop e2 false (k + 1) i = pollLoop env false (k + 1) i := by
  constructor
  · simp [pollLoop, h]
  · intro e2 he
    exact pollLoop_no_dialog_cancel_blind e2 env he (k + 1) i

/-- C6 witness: the amended statement applied to `envPollCancel` with
dialogs shown and cancellation observed at iteration 0. -/
theorem c6_cancel_pause_and_stop_witness :
    envPollCancel.isCancelled 0 = true
    ∧ (pollLoop envPollCancel true 10 0 = some ⟨false, 0, true⟩
      ∧ ∀ e2 : PollEnv, e2.progress = envPollCancel.progress →
          pollLoop e2 false 10 0 = pollLoop envPollCancel false 10 0) :=
  ⟨rfl, c6_cancel_pause_and_stop envPollCancel 9 0 rfl⟩

/-! ## Frame property of get_non_available_dependencies -/

/-- C10: the list returned by `get_non_available_dependencies` is
fully determined before the confirm-then-fetch step: it equals the
phase-1 computation alone, and it is unchanged under every dialog
choice, every post-download world seen by the triggered
`get_dependencies` calls, and every recursion budget. -/
theorem c10_result_fixed_before_fetch (env : NEnv) (t1 t2 : TopEnv)
    (ch1 ch2 : List String → Bool × Bool) (f1 f2 : Nat) (filePath : Option String) :
    (get_non_available_dependencies_full env t1 ch1 f1 filePath).1
      = get_non_available_dependencies env filePath
    ∧ (get_non_available_dependencies_full env t1 ch1 f1 filePath).1
      = (get_non_available_dependencies_full env t2 ch2 f2 filePath).1 := by
  constructor
  · unfold get_non_available_dependencies_full get_non_available_dependencies
    dsimp only
    simp only [apply_ite (Prod.fst : List String × List Graph → List String)]
  · unfold get_non_available_dependencies_full
    dsimp only
    simp only [apply_ite (Prod.fst : List String × List Graph → List String)]

/-! ## UDIM candidate resolution -/

/-- C4 counterexample: on the specification's own example the code
returns no candidate.  The reference filename tile_<UDIM>_color.png
zip-matches the candidate tile_1001_color.png segment by segment (the
claim's rule), but the code strips the reference's extension before
splitting (line 182) while splitting the candidate name whole (line
203), so the final compared pair is "color" versus "color.png" and
every candidate is rejected: `get_non_available_dependencies` yields
the empty list instead of the two advertised candidates. -/
theorem c4_udim_ext_strip_cex :
    udimZipMatch (splitU "tile_<UDIM>_color.png") (splitU "tile_1001_color.png") = true
    ∧ udimZipMatch
        (splitU (envUdimMid.splitextRoot (envUdimMid.basename "T/tile_<UDIM>_color.png")))
        (splitU "tile_1001_color.png") = false
    ∧ get_non_available_dependencies envUdimMid (some "s.ma") = [] := by
  refine ⟨by decide, by decide, by decide⟩

theorem addListing_acc (dir : String) (g : GMap String) (l : List String)
    (entries : List (Bool × String)) (h : ghasKey g dir = false) :
    addListing dir (g ++ [(dir, l)]) entries = g ++ [(dir, l ++ validNames entries)] := by
  induction entries generalizing l with
  | nil => simp [addListing, validNames]
  | cons e es ih =>
    simp only [addListing, gsetdefault_append_single]
    by_cases he : e.1 ∧ e.2 ≠ ""
    · rw [if_pos he, gappend_append_single g dir l e.2 h, ih (l ++ [e.2])]
      simp [validNames, List.filterMap_cons, he]
    · rw [if_neg he, ih l]
      simp [validNames, List.filterMap_cons, he]

theorem addListing_fresh (dir : String) (entries : List (Bool × String)) (g : GMap String)
    (h : ghasKey g dir = false) :
    addListing dir g entries
      = if entries.isEmpty then g else g ++ [(dir, validNames entries)] := by
  cases entries with
  | nil => simp [addListing]
  | cons e es =>
    have hsd : gsetdefault g dir = g ++ [(dir, [])] := by
      unfold gsetdefault; rw [h]; simp
    simp only [addListing, hsd, List.isEmpty_cons, if_false, Bool.false_eq_true]
    by_cases he : e.1 ∧ e.2 ≠ ""
    · rw [if_pos he, gappend_append_single g dir [] e.2 h]
      simp only [List.nil_append]
      rw [addListing_acc dir g [e.2] es h]
      simp [validNames, List.filterMap_cons, he]
    · rw [if_neg he, addListing_acc dir g [] es h]
      simp [validNames, List.filterMap_cons, he]

theorem fetchListing_empty (env : NEnv) (dir : String) :
    fetchListing env ([] : GMap String) dir
      = match env.statusDir dir with
        | none => [(dir, [])]
        | some entries => if entries.isEmpty then [] else [(dir, validNames entries)] := by
  have hkey : ghasKey ([] : GMap String) dir = false := rfl
  unfold fetchListing
  rw [hkey]
  cases env.statusDir dir with
  | none => simp
  | some entries => simp [addListing_fresh dir entries [] hkey]

theorem udimCollect_eq (env : NEnv) (dp : List String) (dir : String) :
    ∀ (ns acc : List String),
      udimCollect env dp dir ns acc
        = acc ++ (ns.filter (fun n => udimZipMatch dp (splitU n))).filterMap
            (candKeep env dir) := by
  intro ns
  induction ns with
  | nil => intro acc; simp [udimCollect]
  | cons n ns ih =>
    intro acc
    simp only [udimCollect]
    by_cases hm : udimZipMatch dp (splitU n) = true
    · rw [if_pos hm]
      by_cases h1 : env.translateDcc (env.joinPath dir n) ≠ ""
          ∧ ¬ env.isFile (env.translateDcc (env.joinPath dir n))
      · rw [if_pos h1]
        by_cases h2 : env.isDir (env.translateDcc (env.joinPath dir n))
        · rw [if_pos h2, ih acc]
          simp [List.filter_cons, List.filterMap_cons, hm, candKeep, h1.1, h1.2, h2]
        · rw [if_neg h2]
          by_cases h3 : env.splitextExt (env.translateDcc (env.joinPath dir n)) = ""
          · rw [if_pos h3, ih acc]
            simp [List.filter_cons, List.filterMap_cons, hm, candKeep, h1.1, h1.2, h2, h3]
          · rw [if_neg h3, ih (acc ++ [env.translateDcc (env.joinPath dir n)])]
            simp [List.filter_cons, List.filterMap_cons, hm, candKeep, h1.1, h1.2, h2, h3]
      · rw [if_neg h1, ih acc]
        have : candKeep env dir n = none := by
          unfold candKeep
          rw [if_neg]
          intro hh
          exact h1 ⟨hh.1, hh.2.1⟩
        simp [List.filter_cons, List.filterMap_cons, hm, this]
    · rw [if_neg hm, ih acc]
      simp only [Bool.not_eq_true] at hm
      simp [List.filter_cons, hm]

theorem nonAvailFold (env : NEnv) (dp : List String) :
    ∀ (rpf : GMap String) (acc : List String),
      rpf.foldl (fun a p => if p.2.isEmpty then a else udimCollect env dp p.1 p.2 a) acc
        = acc ++ (rpf.map (fun p => udimCandidatesIn env dp p.1 p.2)).flatten := by
  intro rpf
  induction rpf with
  | nil => intro acc; simp
  | cons p ps ih =>
    intro acc
    simp only [List.foldl_cons, List.map_cons, List.flatten_cons]
    by_cases hE : p.2.isEmpty = true
    · rw [if_pos hE, ih]
      have hnil : p.2 = [] := by simpa using hE
      rw [hnil]
      simp [udimCandidatesIn]
    · rw [if_neg hE, ih, udimCollect_eq]
      simp [udimCandidatesIn, List.append_assoc]

/-- C4 amended: for every UDIM-pattern reference, the resolver fetches
the remote listing of the reference's own directory into the per-call
cache when it is not cached yet, and then matches against the file
names of every directory cached so far — in cache insertion order, and
within each directory in listing order — so with several UDIM
references the earlier directories' names are re-matched (and can be
re-accepted) for later references; a name is accepted exactly when its
full `_`-delimited segments match, position by position under zip
truncation, the segments of the reference's filename with its
extension stripped (the placeholder matches anything, every other
compared segment must be equal, extra segments on either side are
ignored); accepted candidates whose translated path already exists
locally as a file are excluded from the result, and candidates whose
translated path is empty, a directory, or without a file extension are
excluded entirely.  When the cache holds only the reference's own
directory — in particular for a scene whose only reference is the UDIM
pattern — this reduces to exactly that directory's listing, filtered
in listing order. -/
theorem c4_udim_candidates (env : NEnv) (rpf : GMap String) (acc : List String)
    (fp dep : String) (hu : env.isUdim dep = true) :
    nonAvailStep env (rpf, acc) dep
      = (fetchListing env rpf (env.dirname dep),
          if ghasKey (fetchListing env rpf (env.dirname dep)) (env.dirname dep)
          then acc ++ ((fetchListing env rpf (env.dirname dep)).map
              (fun p => udimCandidatesIn env
                (splitU (env.splitextRoot (env.basename dep))) p.1 p.2)).flatten
          else acc)
    ∧ (nonAvailStep env ([], acc) dep).2 = acc ++ udimCandidates env dep
    ∧ (env.clientOk = true → fp ≠ "" → env.isFile fp = true → env.parse fp = [dep] →
        get_non_available_dependencies env (some fp) = udimCandidates env dep) := by
  have key : ∀ a : List String,
      (nonAvailStep env ([], a) dep).2 = a ++ udimCandidates env dep := by
    intro a
    unfold nonAvailStep
    dsimp only
    cases hsd : env.statusDir (env.dirname dep) with
    | none =>
      simp [hu, fetchListing_empty, hsd, ghasKey, udimCandidates]
    | some entries =>
      cases entries with
      | nil =>
        simp [hu, fetchListing_empty, hsd, udimCandidates, validNames, ghasKey]
      | cons e es =>
        simp only [hu, fetchListing_empty, hsd, List.isEmpty_cons, Bool.false_eq_true,
          if_false, if_true]
        have hkey2 : ghasKey [((env.dirname dep), validNames (e :: es))] (env.dirname dep)
            = true := by simp [ghasKey]
        simp only [hkey2, if_true, List.foldl_cons, List.foldl_nil]
        by_cases hvn : validNames (e :: es) = []
        · simp [hvn, udimCandidates, hsd]
        · have hvn2 : (validNames (e :: es)).isEmpty = false := by
            simp [List.isEmpty_iff, hvn]
          simp only [hvn2, Bool.false_eq_true, if_false]
          rw [udimCollect_eq]
          simp [udimCandidates, hsd]
  refine ⟨?_, key acc, ?_⟩
  · unfold nonAvailStep
    dsimp only
    rw [if_pos hu]
    by_cases hk : ghasKey (fetchListing env rpf (env.dirname dep)) (env.dirname dep) = true
    · rw [if_pos hk, if_pos hk, nonAvailFold]
    · rw [if_neg hk, if_neg hk]
  · intro hc hfp hf hp
    have hsf : strFalsy (some fp) = false := by simp [strFalsy, hfp]
    have htop : get_non_available_dependencies env (some fp)
        = (nonAvailStep env ([], []) dep).2 := by
      unfold get_non_available_dependencies
      simp [hsf, hc, hf, hp]
    rw [htop, key []]
    simp

/-- C4 witness: the amended statement exercised twice.  In
`envUdimTwo` the closed form is applied to the second reference
B/t_<UDIM>.png with directory A already cached: the accepted
candidates come from both cached directories, and the full function on
the two-reference scene even re-accepts A's tiles for the B reference
(duplicating them) before B's own tile, in cache-then-listing order.
In `envUdimLast` (placeholder in final position, single reference) the
single-directory reduction yields exactly the two remote tiles in
listing order. -/
theorem c4_udim_candidates_witness :
    (envUdimTwo.isUdim "B/t_<UDIM>.png" = true
      ∧ envUdimLast.clientOk = true ∧ "s.ma" ≠ "" ∧ envUdimLast.isFile "s.ma" = true
      ∧ envUdimLast.parse "s.ma" = ["T/tile_color_<UDIM>.png"]
      ∧ envUdimLast.isUdim "T/tile_color_<UDIM>.png" = true)
    ∧ nonAvailStep envUdimTwo ([("A", ["t_1001.png", "t_9999.jpg"])], []) "B/t_<UDIM>.png"
        = (fetchListing envUdimTwo [("A", ["t_1001.png", "t_9999.jpg"])]
            (envUdimTwo.dirname "B/t_<UDIM>.png"),
            if ghasKey (fetchListing envUdimTwo [("A", ["t_1001.png", "t_9999.jpg"])]
                (envUdimTwo.dirname "B/t_<UDIM>.png")) (envUdimTwo.dirname "B/t_<UDIM>.png")
            then [] ++ ((fetchListing envUdimTwo [("A", ["t_1001.png", "t_9999.jpg"])]
                (envUdimTwo.dirname "B/t_<UDIM>.png")).map
                (fun p => udimCandidatesIn envUdimTwo
                  (splitU (envUdimTwo.splitextRoot (envUdimTwo.basename "B/t_<UDIM>.png")))
                  p.1 p.2)).flatten
            else [])
    ∧ (nonAvailStep envUdimTwo ([("A", ["t_1001.png", "t_9999.jpg"])], []) "B/t_<UDIM>.png").2
        = ["A/t_1001.png", "A/t_9999.jpg", "B/t_2001.png"]
    ∧ get_non_available_dependencies envUdimTwo (some "s.ma")
        = ["A/t_1001.png", "A/t_9999.jpg", "A/t_1001.png", "A/t_9999.jpg", "B/t_2001.png"]
    ∧ get_non_available_dependencies envUdimLast (some "s.ma")
        = udimCandidates envUdimLast "T/tile_color_<UDIM>.png"
    ∧ udimCandidates envUdimLast "T/tile_color_<UDIM>.png"
        = ["T/tile_color_1001.png", "T/tile_color_1002.png"] :=
  ⟨⟨by decide, rfl, by decide, by decide, by decide, by decide⟩,
    (c4_udim_candidates envUdimTwo [("A", ["t_1001.png", "t_9999.jpg"])] [] "s.ma"
      "B/t_<UDIM>.png" (by decide)).1,
    by decide,
    by decide,
    (c4_udim_candidates envUdimLast [] [] "s.ma" "T/tile_color_<UDIM>.png"
      (by decide)).2.2 rfl (by decide) (by decide) (by decide),
    by decide⟩

end ArtellaGetDeps

